import Mathlib

/-!
ECDSA web wallet: address derivation, signing and recovery

A shallow embedding of the four source files of the repository

* `scripts/wallet-gen.js`   (key generation and the printed address),
* `scripts/ecdsa-sign.js`   (`hashMessage`, `main`),
* `client/src/App.jsx`      (`MSG`, the initial `address` / `balance` state),
* `client/src/Wallet.jsx`   (`hashMessage`, `recoverPublicKeyFromSignature`,
  `findAddress`),

together with the functions of `ethereum-cryptography` and of the language
that these files call.  The elliptic-curve primitives (`secp.sign`,
`secp.recoverPublicKey`, `secp.getPublicKey`) and the balance server are
parameters of the model; the byte/hex/hash utilities are executable
definitions.  A string of the language is modelled by `String`, a sequence of
Unicode scalar values (texts with unpaired surrogates are outside the model);
where the library counts UTF-16 code units, in `hexToBytes`, the model does so
through `codeUnits`.
-/

namespace EcdsaWallet

/-! ## Bytes and the utilities of `ethereum-cryptography/utils` -/

/-- One element of a `Uint8Array`. -/
abbrev Byte := Fin 256

/-- A `Uint8Array`. -/
abbrev Bytes := List Byte

/-- The digit `d < 16` as a lower-case hexadecimal character, the way
`Number.prototype.toString(16)` prints it. -/
def hexDigit (d : Nat) : Char :=
  if d < 10 then Char.ofNat (48 + d) else Char.ofNat (87 + d)

/-- Entry `hexes[b]` of the table used by `toHex`:
`b.toString(16).padStart(2, '0')`. -/
def hexes (b : Byte) : List Char :=
  [hexDigit (b.val / 16), hexDigit (b.val % 16)]

/-- Library function `toHex` (`bytesToHex`): the concatenation of `hexes[b]`
over the bytes of the array, without any prefix. -/
def toHex (bytes : Bytes) : String :=
  String.mk (bytes.flatMap hexes)

/-- The method `String.prototype.slice(-n)` for a positive literal `n`: the last `n`
characters of the string, or the whole string when it is shorter. It is applied
to hexadecimal text only, where characters and UTF-16 code units coincide. -/
def sliceLast (s : String) (n : Nat) : String :=
  String.mk (s.data.drop (s.data.length - n))

/-- Library function `utf8ToBytes`: the UTF-8 encoding of the string
(`TextEncoder.encode`). -/
def utf8ToBytes (s : String) : Bytes :=
  (s.data.flatMap String.utf8EncodeChar).map (fun b => Fin.ofNat b.toNat)

/-! ## Keccak-256 (`ethereum-cryptography/keccak`) -/

namespace Keccak

/-- Rotation of a 64-bit lane to the left. -/
def rotl64 (v n : Nat) : Nat :=
  ((v <<< n) ||| (v >>> (64 - n))) % 2 ^ 64

/-- Lane `i` of a state of 25 lanes, lane `x + 5 * y` being `A[x, y]`. -/
def lane (s : List Nat) (i : Nat) : Nat := s.getD i 0

/-- The rotation offsets of the step rho, indexed by `x + 5 * y`. -/
def rotc : List Nat :=
  [ 0,  1, 62, 28, 27,
   36, 44,  6, 55, 20,
    3, 10, 43, 25, 39,
   41, 45, 15, 21,  8,
   18,  2, 61, 56, 14]

/-- The 24 round constants of the step iota. -/
def roundConstants : List Nat :=
  [0x0000000000000001, 0x0000000000008082, 0x800000000000808A, 0x8000000080008000,
   0x000000000000808B, 0x0000000080000001, 0x8000000080008081, 0x8000000000008009,
   0x000000000000008A, 0x0000000000000088, 0x0000000080008009, 0x000000008000000A,
   0x000000008000808B, 0x800000000000008B, 0x8000000000008089, 0x8000000000008003,
   0x8000000000008002, 0x8000000000000080, 0x000000000000800A, 0x800000008000000A,
   0x8000000080008081, 0x8000000000008080, 0x0000000080000001, 0x8000000080008008]

/-- Step theta. -/
def theta (s : List Nat) : List Nat :=
  let c := (List.range 5).map fun x =>
    lane s x ^^^ lane s (x + 5) ^^^ lane s (x + 10) ^^^ lane s (x + 15) ^^^ lane s (x + 20)
  let d := (List.range 5).map fun x =>
    lane c ((x + 4) % 5) ^^^ rotl64 (lane c ((x + 1) % 5)) 1
  (List.range 25).map fun i => lane s i ^^^ lane d (i % 5)

/-- Steps rho and pi: `B[y, 2x + 3y] = rot(A[x, y], r[x, y])`, read at the
target position `(X, Y)`, whose source is `((X + 3Y) mod 5, X)`. -/
def rhoPi (s : List Nat) : List Nat :=
  (List.range 25).map fun i =>
    let src := (i % 5 + 3 * (i / 5)) % 5 + 5 * (i % 5)
    rotl64 (lane s src) (lane rotc src)

/-- Step chi. -/
def chi (s : List Nat) : List Nat :=
  (List.range 25).map fun i =>
    let x := i % 5
    let y := i / 5
    lane s i ^^^
      ((lane s ((x + 1) % 5 + 5 * y) ^^^ (2 ^ 64 - 1)) &&& lane s ((x + 2) % 5 + 5 * y))

/-- Step iota. -/
def iota (rc : Nat) (s : List Nat) : List Nat :=
  (lane s 0 ^^^ rc) :: s.drop 1

/-- One round of the permutation. -/
def round (rc : Nat) (s : List Nat) : List Nat :=
  iota rc (chi (rhoPi (theta s)))

/-- The permutation Keccak-f[1600]. -/
def keccakF (s : List Nat) : List Nat :=
  roundConstants.foldl (fun st rc => round rc st) s

/-- The little-endian 64-bit word made of the first eight bytes of the list. -/
def loadLane (bs : List Nat) : Nat :=
  (bs.take 8).foldr (fun b acc => b + 256 * acc) 0

/-- The 17 lanes of a block of 136 bytes (the rate of Keccak-256). -/
def blockLanes (block : List Nat) : List Nat :=
  (List.range 17).map fun i => loadLane (block.drop (8 * i))

/-- Absorption of `n` blocks of 136 bytes. -/
def absorb : Nat → List Nat → List Nat → List Nat
  | 0, s, _ => s
  | n + 1, s, bs =>
    let blk := blockLanes (bs.take 136)
    absorb n (keccakF ((List.range 25).map fun i => lane s i ^^^ lane blk i)) (bs.drop 136)

/-- The padding of Keccak (`pad10*1` with the original suffix `0x01`, not the one
of SHA-3) to a multiple of 136 bytes. -/
def pad (msg : List Nat) : List Nat :=
  let q := 136 - msg.length % 136
  if q = 1 then msg ++ [0x81]
  else msg ++ [0x01] ++ List.replicate (q - 2) 0 ++ [0x80]

/-- Byte `j` of the squeezed output. -/
def outByte (s : List Nat) (j : Nat) : Byte :=
  Fin.ofNat (lane s (j / 8) >>> (8 * (j % 8)))

end Keccak

/-- Library function `keccak256`: Keccak with rate 1088, capacity 512 and a
digest of 32 bytes. -/
def keccak256 (data : Bytes) : Bytes :=
  let padded := Keccak.pad (data.map Fin.val)
  let s := Keccak.absorb (padded.length / 136) (List.replicate 25 0) padded
  (List.range 32).map (Keccak.outByte s)


/-! ## The remaining library functions and the language built-ins -/

/-- An exception: an `Error` of a library with its message, or a `TypeError` of the
engine (whose message depends on the engine). -/
inductive Thrown where
  | error (message : String)
  | typeError
deriving DecidableEq

/-- The UTF-16 code units of a character. -/
def utf16Units (c : Char) : List Nat :=
  if c.toNat < 0x10000 then [c.toNat]
  else [0xD800 + (c.toNat - 0x10000) / 0x400, 0xDC00 + (c.toNat - 0x10000) % 0x400]

/-- The code units of a string of the language, which `length`, `slice`,
`startsWith` and `substring` count. -/
def codeUnits (s : String) : List Nat := s.data.flatMap utf16Units

/-- Whether the code unit is white space or a line terminator, the characters
that `parseInt` and `Number` skip. -/
def isWhiteSpaceUnit (n : Nat) : Bool :=
  n = 0x09 || n = 0x0A || n = 0x0B || n = 0x0C || n = 0x0D || n = 0x20 || n = 0xA0 ||
  n = 0x1680 || (0x2000 ≤ n && n ≤ 0x200A) || n = 0x2028 || n = 0x2029 || n = 0x202F ||
  n = 0x205F || n = 0x3000 || n = 0xFEFF

/-- The value of the code unit of a hexadecimal digit, in either case. -/
def hexUnitVal (n : Nat) : Option Nat :=
  if 48 ≤ n ∧ n ≤ 57 then some (n - 48)
  else if 97 ≤ n ∧ n ≤ 102 then some (n - 87)
  else if 65 ≤ n ∧ n ≤ 70 then some (n - 55)
  else none

/-- The value of a hexadecimal digit, in either case. -/
def hexVal (c : Char) : Option Nat := hexUnitVal c.toNat

/-- The built-in `Number.parseInt(text, 16)` on the code units of a text; `none` is
`NaN`. Leading white space is skipped, then an optional sign, then an optional
`0x` or `0X`; the value is that of the longest run of hexadecimal digits that
follows, and `NaN` when that run is empty. The sign of a zero is not kept: the
caller stores the result in a byte array. -/
def parseInt16 (text : List Nat) : Option Int :=
  let trimmed := text.dropWhile isWhiteSpaceUnit
  let negative := trimmed.head? = some 45
  let unsigned := if trimmed.head? = some 45 ∨ trimmed.head? = some 43 then trimmed.drop 1
    else trimmed
  let body := if unsigned.take 2 = [48, 120] ∨ unsigned.take 2 = [48, 88] then unsigned.drop 2
    else unsigned
  let digits := body.takeWhile (fun u => (hexUnitVal u).isSome)
  if digits = [] then none
  else
    let magnitude : Nat := digits.foldl (fun acc u => 16 * acc + (hexUnitVal u).getD 0) 0
    some (if negative then -(magnitude : Int) else magnitude)

/-- One step of the loop of `hexToBytes`: the byte that `parseInt(pair, 16)` reads
from a pair of code units; `none` when it gives `NaN` or a negative number
(`Invalid byte sequence`). -/
@[irreducible] def decodeByte (hi lo : Nat) : Option Byte :=
  match parseInt16 [hi, lo] with
  | none => none
  | some byte => if byte < 0 then none else some (Fin.ofNat byte.toNat)

/-- The loop of `hexToBytes` over a text of even length; `none` when a pair is
rejected. -/
def decodePairs : List Nat → Option Bytes
  | [] => some []
  | [_] => none
  | hi :: lo :: rest =>
    match decodeByte hi lo, decodePairs rest with
    | some byte, some bytes => some (byte :: bytes)
    | _, _ => none

/-- Library function `hexToBytes` of `ethereum-cryptography/utils`: a leading `0x` is
dropped, a text of odd length is rejected, and each pair of code units is read
with `parseInt(pair, 16)`, a pair that gives `NaN` or a negative number being
rejected. -/
def hexToBytes (data : String) : Except Thrown Bytes :=
  let units := codeUnits data
  let sliced := if units.take 2 = [48, 120] then units.drop 2 else units
  if sliced.length % 2 ≠ 0 then .error (.error "hexToBytes: received invalid unpadded hex")
  else
    match decodePairs sliced with
    | some bytes => .ok bytes
    | none => .error (.error "Invalid byte sequence")

/-- A Number value of the language: `NaN`, a finite number whose value is an
integer (`int 0` being `+0`), the negative zero, a finite number whose value is
not an integer, or an infinity. -/
inductive JSNumber where
  | nan
  | int (v : Int)
  | negZero
  | frac (q : ℚ)
  | inf (negative : Bool)
deriving DecidableEq

/-- The characters that `StringToNumber` strips from both ends of the text
(white space and line terminators). -/
def isStrWhiteSpaceChar (c : Char) : Bool := isWhiteSpaceUnit c.toNat

/-- The text without leading and trailing white space. -/
def trimWhiteSpace (cs : List Char) : List Char :=
  ((cs.dropWhile isStrWhiteSpaceChar).reverse.dropWhile isStrWhiteSpaceChar).reverse

/-- The value of a digit in the given base, for the bases up to 16. -/
def digitVal (base : Nat) (c : Char) : Option Nat :=
  match hexVal c with
  | some d => if d < base then some d else none
  | none => none

/-- The value of a non-empty sequence of digits of the given base; `none` for
the empty sequence and for one with another character. -/
def digitsValue (base : Nat) (cs : List Char) : Option Nat :=
  if cs = [] then none
  else cs.foldl
    (fun acc c =>
      match acc, digitVal base c with
      | some v, some d => some (base * v + d)
      | _, _ => none)
    (some 0)

/-- The integer `e` with `2 ^ e ≤ n / d < 2 ^ (e + 1)`, for positive `n` and `d`. -/
def floorLog2 (n d : Nat) : Int :=
  let e0 : Int := (Nat.log2 n : Int) - (Nat.log2 d : Int)
  if d * 2 ^ e0.toNat ≤ n * 2 ^ (-e0).toNat then e0 else e0 - 1

/-- The binary64 value nearest to the positive rational `n / d`, ties going to the
even significand; `none` when the rounded value is out of range (an infinity).
The significand has 53 bits, the least exponent of a normal number is `-1022`,
and smaller values are rounded on the grid of the subnormal numbers. -/
def roundToDouble (n d : Nat) : Option ℚ :=
  if n = 0 then some 0
  else
    let k : Int := max (floorLog2 n d) (-1022) - 52
    let num := n * 2 ^ (-k).toNat
    let den := d * 2 ^ k.toNat
    let q := num / den
    let r := num % den
    let m := if den < 2 * r ∨ (2 * r = den ∧ q % 2 = 1) then q + 1 else q
    if 2 ^ 1024 * 2 ^ (-k).toNat ≤ m * 2 ^ k.toNat then none
    else some (mkRat (m * 2 ^ k.toNat) (2 ^ (-k).toNat))

/-- The Number with the given sign whose magnitude is the binary64 value nearest
to `n / d`. -/
def finiteNumber (negative : Bool) (n d : Nat) : JSNumber :=
  match roundToDouble n d with
  | none => .inf negative
  | some q =>
    if q = 0 then (if negative then .negZero else .int 0)
    else if q.den = 1 then .int (if negative then -q.num else q.num)
    else .frac (if negative then -q else q)

/-- The exponent written by the text that follows the digits of a decimal
literal: `0` for no text, the signed value of an `ExponentPart`, `none` for
any other text. -/
def parseExponent : List Char → Option Int
  | [] => some 0
  | c :: rest =>
    if c = 'e' ∨ c = 'E' then
      match rest with
      | '+' :: ds => (digitsValue 10 ds).map (fun v => (v : Int))
      | '-' :: ds => (digitsValue 10 ds).map (fun v => -(v : Int))
      | ds => (digitsValue 10 ds).map (fun v => (v : Int))
    else none

/-- The value of a `StrUnsignedDecimalLiteral` with the given sign, `NaN` when
the text is not one: `Infinity`, or digits with an optional fraction and an
optional exponent, at least one digit standing before the exponent. -/
def unsignedDecimal (negative : Bool) (cs : List Char) : JSNumber :=
  if cs = "Infinity".data then .inf negative
  else
    let ip := (cs.span Char.isDigit).1
    let afterInt := (cs.span Char.isDigit).2
    let fp := match afterInt with
      | '.' :: r => (r.span Char.isDigit).1
      | _ => []
    let ex := match afterInt with
      | '.' :: r => (r.span Char.isDigit).2
      | r => r
    if ip = [] ∧ fp = [] then .nan
    else
      match parseExponent ex with
      | none => .nan
      | some e =>
        let digits := (digitsValue 10 (ip ++ fp)).getD 0
        let scale : Int := e - fp.length
        if 0 ≤ scale then finiteNumber negative (digits * 10 ^ scale.toNat) 1
        else finiteNumber negative digits (10 ^ (-scale).toNat)

/-- The built-in `Number(s)` on a string (`StringToNumber`): white space is
stripped, the empty text is `0`, a `StrNumericLiteral` has its value rounded to
binary64, and any other text is `NaN`. -/
def jsNumber (s : String) : JSNumber :=
  match trimWhiteSpace s.data with
  | [] => .int 0
  | '0' :: 'x' :: ds | '0' :: 'X' :: ds =>
    match digitsValue 16 ds with
    | some v => finiteNumber false v 1
    | none => .nan
  | '0' :: 'o' :: ds | '0' :: 'O' :: ds =>
    match digitsValue 8 ds with
    | some v => finiteNumber false v 1
    | none => .nan
  | '0' :: 'b' :: ds | '0' :: 'B' :: ds =>
    match digitsValue 2 ds with
    | some v => finiteNumber false v 1
    | none => .nan
  | '+' :: cs => unsignedDecimal false cs
  | '-' :: cs => unsignedDecimal true cs
  | cs => unsignedDecimal false cs

/-- The text of a non-negative integer below `10 ^ 21`, as `String(n)` and
`console.log` print it: its decimal digits. -/
def numberToString (n : Nat) : String := Nat.repr n

/-! ## The collaborators: the elliptic-curve library and the balance server -/

/-- A private key as the library accepts it: a hexadecimal string (what the
signing script reads from the prompt) or a byte array (what
`secp.utils.randomPrivateKey` returns). -/
inductive PrivKey where
  | hex (s : String)
  | bytes (b : Bytes)
deriving DecidableEq

/-- The functions of `ethereum-cryptography/secp256k1` that the repository calls.
Each may throw. `sign` is the call with the option `recovered: true`, whose result
is the pair of the signature and the recovery number. -/
structure Secp where
  sign : Bytes → PrivKey → Except Thrown (Bytes × Nat)
  recoverPublicKey : Bytes → Bytes → JSNumber → Except Thrown Bytes
  getPublicKey : PrivKey → Except Thrown Bytes

/-- A value that the balance state of the interface may hold. -/
inductive JSValue where
  | undefined
  | number (n : JSNumber)
  | string (s : String)
deriving DecidableEq

/-- The response of the HTTP client. `data` is the decoded body: `none` when it is
`null` or `undefined`, otherwise its properties (a body that is not an object
has none). -/
structure Response where
  status : Nat
  headers : List (String × String)
  data : Option (List (String × JSValue))
deriving DecidableEq

/-- The property `key` of an object, `undefined` when it has none. -/
def getProp (object : List (String × JSValue)) (key : String) : JSValue :=
  (object.lookup key).getD .undefined

/-- The module `./server`: `get path` is the outcome of the awaited request, a
response or a rejection. -/
structure Server where
  get : String → Except Thrown Response

/-! ## `client/src/App.jsx` and `client/src/Wallet.jsx` -/

/-- The constant `MSG` of `App.jsx`. -/
def MSG : String := "cryptography is the real truth"

/-- What `findAddress` does that is visible outside it, in order. -/
inductive Event where
  | recoverPublicKey (messageHash signatureBytes : Bytes) (recovery : JSNumber)
  | get (path : String)
  | setAddress (address : String)
  | setBalance (balance : JSValue)
  | consoleError (err : Thrown)
deriving DecidableEq

/-- The state of `App` (`address`, `balance`) together with the log of the calls
made so far. -/
structure World where
  address : String
  balance : JSValue
  log : List Event
deriving DecidableEq

/-- The state in which `App` starts: `useState("")` and `useState(0)`. -/
def World.initial : World := ⟨"", .number (.int 0), []⟩

/-- The call `setAddress(a)`. -/
def World.setAddress (w : World) (a : String) : World :=
  { w with address := a, log := w.log ++ [.setAddress a] }

/-- The call `setBalance(b)`. -/
def World.setBalance (w : World) (b : JSValue) : World :=
  { w with balance := b, log := w.log ++ [.setBalance b] }

/-- The record of further events. -/
def World.logged (w : World) (events : List Event) : World :=
  { w with log := w.log ++ events }

namespace Wallet

/-- Function `hashMessage` of `Wallet.jsx`. -/
def hashMessage (message : String) : Bytes := keccak256 (utf8ToBytes message)

/-- Function `recoverPublicKeyFromSignature` of `Wallet.jsx`: the library calls it makes
and its result. -/
def recoverPublicKeyFromSignature (secp : Secp) (message signatureHex recoveryBit : String) :
    List Event × Except Thrown Bytes :=
  let messageHash := hashMessage message
  match hexToBytes signatureHex with
  | .error err => ([], .error err)
  | .ok signatureBytes =>
    ([.recoverPublicKey messageHash signatureBytes (jsNumber recoveryBit)],
      secp.recoverPublicKey messageHash signatureBytes (jsNumber recoveryBit))

/-- The expression `toHex(pubKey).slice(-20)` that `findAddress` binds to
`derivedAddress`. -/
def derivedAddress (pubKey : Bytes) : String := sliceLast (toHex pubKey) 20

/-- The `try` block of `findAddress`: the world it leaves and whether it
completed or threw. -/
def findAddressTry (secp : Secp) (server : Server) (signature recoveryBit : String)
    (w : World) : World × Except Thrown Unit :=
  if signature = "" ∨ recoveryBit = "" then (w, .ok ())
  else
    match recoverPublicKeyFromSignature secp MSG signature recoveryBit with
    | (calls, .error err) => (w.logged calls, .error err)
    | (calls, .ok pubKey) =>
      let w1 := (w.logged calls).setAddress (derivedAddress pubKey)
      if derivedAddress pubKey ≠ "" then
        let w2 := w1.logged [.get ("balance/" ++ derivedAddress pubKey)]
        match server.get ("balance/" ++ derivedAddress pubKey) with
        | .error err => (w2, .error err)
        | .ok response =>
          match response.data with
          | none => (w2, .error .typeError)
          | some data => (w2.setBalance (getProp data "balance"), .ok ())
      else (w1.setBalance (.number (.int 0)), .ok ())

/-- Function `findAddress` of `Wallet.jsx`, run with the inputs `signature` and
`recoveryBit` of the form: the `try` block, and the `catch` block when it threw. -/
def findAddress (secp : Secp) (server : Server) (signature recoveryBit : String)
    (w : World) : World × Except Thrown Unit :=
  match findAddressTry secp server signature recoveryBit w with
  | (w1, .ok ()) => (w1, .ok ())
  | (w1, .error err) =>
    (((w1.logged [.consoleError err]).setAddress "").setBalance (.number (.int 0)), .ok ())

end Wallet

/-! ## `scripts/ecdsa-sign.js` -/

namespace Sign

/-- Function `hashMessage` of `ecdsa-sign.js`. -/
def hashMessage (message : String) : Bytes := keccak256 (utf8ToBytes message)

/-- Function `main` of `ecdsa-sign.js` for the two answers to its prompts: the lines it
prints, or the exception of `secp.sign`. -/
def main (secp : Secp) (privateKey message : String) : Except Thrown (List String) :=
  match secp.sign (hashMessage message) (.hex privateKey) with
  | .error err => .error err
  | .ok (signature, recoveryBit) =>
    .ok ["\nSignature: " ++ toHex signature, "Recovery Bit: " ++ numberToString recoveryBit]

end Sign

/-! ## `scripts/wallet-gen.js` -/

namespace WalletGen

/-- The expression `toHex(keccak256(publicKey)).slice(-40)` bound to `address`. -/
def address (publicKey : Bytes) : String := sliceLast (toHex (keccak256 publicKey)) 40

/-- The script for the private key that `secp.utils.randomPrivateKey()` draws:
the lines printed, and whether it completed or `getPublicKey` threw. -/
def script (secp : Secp) (privateKey : Bytes) : List String × Except Thrown Unit :=
  match secp.getPublicKey (.bytes privateKey) with
  | .error err => (["Private Key: " ++ toHex privateKey], .error err)
  | .ok publicKey =>
    (["Private Key: " ++ toHex privateKey, "Public Key: " ++ toHex publicKey,
      "Address: " ++ address publicKey], .ok ())

end WalletGen

/-! ## Test data -/

/-- The uncompressed public key of the private key `1`, the base point of the
curve. -/
def basePointKey : Bytes :=
  [0x04,
   0x79, 0xbe, 0x66, 0x7e, 0xf9, 0xdc, 0xbb, 0xac, 0x55, 0xa0, 0x62, 0x95, 0xce, 0x87, 0x0b, 0x07,
   0x02, 0x9b, 0xfc, 0xdb, 0x2d, 0xce, 0x28, 0xd9, 0x59, 0xf2, 0x81, 0x5b, 0x16, 0xf8, 0x17, 0x98,
   0x48, 0x3a, 0xda, 0x77, 0x26, 0xa3, 0xc4, 0x65, 0x5d, 0xa4, 0xfb, 0xfc, 0x0e, 0x11, 0x08, 0xa8,
   0xfd, 0x17, 0xb4, 0x48, 0xa6, 0x85, 0x54, 0x19, 0x9c, 0x47, 0xd0, 0x8f, 0xfb, 0x10, 0xd4, 0xb8]

/-- A stand-in for the curve library, for running the model: the signature of a
digest is the digest followed by the text of the key, the recovery number is
`1`, and recovery accepts the numbers `0` and `1` and returns what follows the
digest in the signature. -/
def demoSecp : Secp where
  sign := fun digest key =>
    match key with
    | .hex s => if s = "" then .error (.error "invalid private key") else .ok (digest ++ utf8ToBytes s, 1)
    | .bytes b => if b = [] then .error (.error "invalid private key") else .ok (digest ++ b, 1)
  recoverPublicKey := fun digest signature recovery =>
    if (recovery = .int 0 ∨ recovery = .int 1) ∧ signature.take digest.length = digest then
      .ok (signature.drop digest.length)
    else .error (.error "cannot recover")
  getPublicKey := fun key =>
    match key with
    | .hex s => if s = "" then .error (.error "invalid private key") else .ok (utf8ToBytes s)
    | .bytes b => if b = [] then .error (.error "invalid private key") else .ok b

/-- A curve library whose recovery returns the base-point key for the recovery
numbers `0` and `1` and throws for any other. -/
def basePointSecp : Secp where
  sign := fun _ _ => .error (.error "not available")
  recoverPublicKey := fun _ _ recovery =>
    if recovery = .int 0 ∨ recovery = .int 1 then .ok basePointKey
    else .error (.error "Cannot recover: invalid recovery bit")
  getPublicKey := fun _ => .ok basePointKey

/-- A balance server that answers every request with the balance `75`. -/
def demoServer : Server where
  get := fun path =>
    .ok ⟨200, [("content-type", "application/json")],
      some [("owner", .string path), ("balance", .number (.int 75))]⟩

/-- A balance server that answers every request with a response without a body. -/
def bodylessServer : Server where
  get := fun _ => .ok ⟨204, [], none⟩

/-- The bytes of a compact signature `r ‖ s` with `r` the abscissa of the base
point and `s = 1`. -/
def demoSignatureBytes : Bytes :=
  (basePointKey.drop 1).take 32 ++ List.replicate 31 0 ++ [1]

/-- The text of that signature, as the signing script prints signatures. -/
def demoSignature : String := toHex demoSignatureBytes

/-- A state of the interface left by an earlier successful look-up. -/
def priorWorld : World := ⟨"0123456789abcdef0123", .number (.int 50), []⟩


/-! ## Facts about the utilities -/

theorem toHex_data (b : Bytes) : (toHex b).data = b.flatMap hexes := rfl

theorem length_flatMap_hexes (b : Bytes) : (b.flatMap hexes).length = 2 * b.length := by
  induction b with
  | nil => rfl
  | cons x xs ih => simp [List.flatMap_cons, hexes, ih]; omega

theorem drop_flatMap_hexes (b : Bytes) (j : Nat) :
    (b.flatMap hexes).drop (2 * j) = (b.drop j).flatMap hexes := by
  induction j generalizing b with
  | zero => simp
  | succ j ih =>
    cases b with
    | nil => simp
    | cons x xs =>
      have h : 2 * (j + 1) = 2 * j + 2 := by omega
      simp [List.flatMap_cons, hexes, h, ih]

theorem sliceLast_toHex (b : Bytes) (k : Nat) :
    sliceLast (toHex b) (2 * k) = toHex (b.drop (b.length - k)) := by
  have h : 2 * b.length - 2 * k = 2 * (b.length - k) := by omega
  simp only [sliceLast, toHex, length_flatMap_hexes, h, drop_flatMap_hexes]

theorem length_toHex (b : Bytes) : (toHex b).length = 2 * b.length := by
  exact length_flatMap_hexes b

theorem keccak256_length (data : Bytes) : (keccak256 data).length = 32 := by
  simp [keccak256]

theorem keccak256_empty :
    toHex (keccak256 []) = "c5d2460186f7233c927e7db2dcc703c0e500b653ca82273b7bfad8045d85a470" := by
  decide!

theorem keccak256_abc :
    toHex (keccak256 (utf8ToBytes "abc"))
      = "4e03657aea45a94fc7d47ba826c8d667c0d1e6e33a64a036ec44f58fa12d6c45" := by
  decide!

theorem hexDigit_mem (d : Nat) (h : d < 16) : hexDigit d ∈ "0123456789abcdef".data := by
  interval_cases d <;> decide

theorem toHex_chars (b : Bytes) : ∀ c ∈ (toHex b).data, c ∈ "0123456789abcdef".data := by
  intro c hc
  simp only [toHex_data, List.mem_flatMap, hexes] at hc
  obtain ⟨x, _, hx⟩ := hc
  simp only [List.mem_cons, List.mem_singleton, List.not_mem_nil, or_false] at hx
  rcases hx with rfl | rfl
  · exact hexDigit_mem _ (by omega)
  · exact hexDigit_mem _ (by omega)

theorem codeUnits_hexes : ∀ x : Byte,
    (hexes x).flatMap utf16Units = [(hexDigit (x.val / 16)).toNat, (hexDigit (x.val % 16)).toNat] := by
  decide!

theorem codeUnits_toHex (b : Bytes) :
    codeUnits (toHex b) =
      b.flatMap (fun x => [(hexDigit (x.val / 16)).toNat, (hexDigit (x.val % 16)).toNat]) := by
  show (b.flatMap hexes).flatMap utf16Units = _
  induction b with
  | nil => rfl
  | cons x xs ih =>
    rw [List.flatMap_cons, List.flatMap_append, ih, codeUnits_hexes, List.flatMap_cons]

theorem decodeByte_hexes : ∀ x : Byte,
    decodeByte (hexDigit (x.val / 16)).toNat (hexDigit (x.val % 16)).toNat = some x := by
  decide!

theorem hexes_not_0x : ∀ x : Byte,
    [(hexDigit (x.val / 16)).toNat, (hexDigit (x.val % 16)).toNat] ≠ [48, 120] := by
  decide!

theorem decodePairs_step (hi lo : Nat) (rest : List Nat) (byte : Byte) (bytes : Bytes)
    (h : decodeByte hi lo = some byte) (hr : decodePairs rest = some bytes) :
    decodePairs (hi :: lo :: rest) = some (byte :: bytes) := by
  simp only [decodePairs, h, hr]

theorem decodePairs_hexes (b : Bytes) :
    decodePairs
      (b.flatMap (fun x => [(hexDigit (x.val / 16)).toNat, (hexDigit (x.val % 16)).toNat]))
      = some b := by
  induction b with
  | nil => rfl
  | cons x xs ih =>
    rw [List.flatMap_cons, List.cons_append, List.cons_append, List.nil_append]
    exact decodePairs_step _ _ _ x xs (decodeByte_hexes x) ih

theorem hexToBytes_toHex (b : Bytes) : hexToBytes (toHex b) = .ok b := by
  have hlen : (b.flatMap
      (fun x => [(hexDigit (x.val / 16)).toNat, (hexDigit (x.val % 16)).toNat])).length % 2 = 0 := by
    induction b with
    | nil => rfl
    | cons x xs ih => simp only [List.flatMap_cons, List.length_append, List.length_cons,
        List.length_nil]; omega
  have hpre : (b.flatMap
      (fun x => [(hexDigit (x.val / 16)).toNat, (hexDigit (x.val % 16)).toNat])).take 2
      ≠ [48, 120] := by
    cases b with
    | nil => simp
    | cons x xs =>
      rw [List.flatMap_cons]
      exact hexes_not_0x x
  simp only [hexToBytes, codeUnits_toHex, hpre, if_false, hlen, ne_eq, not_true_eq_false,
    decodePairs_hexes]

theorem jsNumber_numberToString (rec : Nat) (h : rec ≤ 3) :
    jsNumber (numberToString rec) = .int rec := by
  interval_cases rec <;> decide!

theorem derivedAddress_length_le (pubKey : Bytes) :
    (Wallet.derivedAddress pubKey).length ≤ 20 := by
  show ((toHex pubKey).data.drop ((toHex pubKey).data.length - 20)).length ≤ 20
  rw [List.length_drop]
  omega

theorem address_eq (publicKey : Bytes) :
    WalletGen.address publicKey = toHex ((keccak256 publicKey).drop 12) := by
  have h := sliceLast_toHex (keccak256 publicKey) 20
  rw [keccak256_length] at h
  exact h

theorem address_length (publicKey : Bytes) : (WalletGen.address publicKey).length = 40 := by
  rw [address_eq, length_toHex, List.length_drop, keccak256_length]

theorem derivedAddress_eq (pubKey : Bytes) :
    Wallet.derivedAddress pubKey = toHex (pubKey.drop (pubKey.length - 10)) :=
  sliceLast_toHex pubKey 10

theorem string_ne_empty_of_length (s : String) (h : 0 < s.length) : s ≠ "" := by
  intro hs
  rw [hs] at h
  exact absurd h (by decide)

theorem derivedAddress_length (pubKey : Bytes) (h : 10 ≤ pubKey.length) :
    (Wallet.derivedAddress pubKey).length = 20 := by
  rw [derivedAddress_eq, length_toHex, List.length_drop]
  omega

theorem derivedAddress_ne_empty (pubKey : Bytes) (h : pubKey ≠ []) :
    Wallet.derivedAddress pubKey ≠ "" := by
  apply string_ne_empty_of_length
  rw [derivedAddress_eq, length_toHex, List.length_drop]
  have : 0 < pubKey.length := List.length_pos.mpr h
  omega

theorem findAddress_completes (secp : Secp) (server : Server) (signature recoveryBit : String)
    (w : World) : (Wallet.findAddress secp server signature recoveryBit w).2 = .ok () := by
  unfold Wallet.findAddress
  split <;> rfl

theorem findAddress_of_throw (secp : Secp) (server : Server) (signature recoveryBit : String)
    (w : World) (err : Thrown)
    (h : (Wallet.findAddressTry secp server signature recoveryBit w).2 = .error err) :
    (Wallet.findAddress secp server signature recoveryBit w).1.address = "" ∧
    (Wallet.findAddress secp server signature recoveryBit w).1.balance = .number (.int 0) := by
  unfold Wallet.findAddress
  generalize Wallet.findAddressTry secp server signature recoveryBit w = r at h
  obtain ⟨w1, res⟩ := r
  cases res with
  | ok u => simp at h
  | error e1 => simp [World.setBalance, World.setAddress, World.logged]

theorem findAddress_success (secp : Secp) (server : Server) (signature recoveryBit : String)
    (w : World) (sb P : Bytes) (response : Response) (data : List (String × JSValue))
    (hs : signature ≠ "") (hb : recoveryBit ≠ "")
    (hhex : hexToBytes signature = .ok sb)
    (hrec : secp.recoverPublicKey (Wallet.hashMessage MSG) sb (jsNumber recoveryBit) = .ok P)
    (hP : P ≠ [])
    (hget : server.get ("balance/" ++ Wallet.derivedAddress P) = .ok response)
    (hdata : response.data = some data) :
    Wallet.findAddress secp server signature recoveryBit w =
      (⟨Wallet.derivedAddress P, getProp data "balance",
        w.log ++ [.recoverPublicKey (Wallet.hashMessage MSG) sb (jsNumber recoveryBit),
          .setAddress (Wallet.derivedAddress P),
          .get ("balance/" ++ Wallet.derivedAddress P),
          .setBalance (getProp data "balance")]⟩, .ok ()) := by
  simp [Wallet.findAddress, Wallet.findAddressTry, Wallet.recoverPublicKeyFromSignature,
    hs, hb, hhex, hrec, derivedAddress_ne_empty P hP, hget, hdata,
    World.setBalance, World.setAddress, World.logged]

theorem findAddress_log_head (secp : Secp) (server : Server) (signature recoveryBit : String)
    (w : World) (sb : Bytes)
    (hs : signature ≠ "") (hb : recoveryBit ≠ "")
    (hhex : hexToBytes signature = .ok sb) :
    ∃ rest, (Wallet.findAddress secp server signature recoveryBit w).1.log =
      w.log ++ .recoverPublicKey (Wallet.hashMessage MSG) sb (jsNumber recoveryBit) :: rest := by
  rcases hr : secp.recoverPublicKey (Wallet.hashMessage MSG) sb (jsNumber recoveryBit)
    with err | P
  · exact ⟨[.consoleError err, .setAddress "", .setBalance (.number (.int 0))], by
      simp [Wallet.findAddress, Wallet.findAddressTry, Wallet.recoverPublicKeyFromSignature,
        hs, hb, hhex, hr, World.setBalance, World.setAddress, World.logged]⟩
  · by_cases hne : Wallet.derivedAddress P = ""
    · exact ⟨[.setAddress (Wallet.derivedAddress P), .setBalance (.number (.int 0))], by
        simp [Wallet.findAddress, Wallet.findAddressTry, Wallet.recoverPublicKeyFromSignature,
          hs, hb, hhex, hr, hne, World.setBalance, World.setAddress, World.logged]⟩
    · rcases hg : server.get ("balance/" ++ Wallet.derivedAddress P) with err | response
      · exact ⟨[.setAddress (Wallet.derivedAddress P),
            .get ("balance/" ++ Wallet.derivedAddress P),
            .consoleError err, .setAddress "", .setBalance (.number (.int 0))], by
          simp [Wallet.findAddress, Wallet.findAddressTry, Wallet.recoverPublicKeyFromSignature,
            hs, hb, hhex, hr, hne, hg, World.setBalance, World.setAddress, World.logged]⟩
      · rcases hd : response.data with _ | data
        · exact ⟨[.setAddress (Wallet.derivedAddress P),
              .get ("balance/" ++ Wallet.derivedAddress P),
              .consoleError .typeError,
              .setAddress "", .setBalance (.number (.int 0))], by
            simp [Wallet.findAddress, Wallet.findAddressTry,
              Wallet.recoverPublicKeyFromSignature,
              hs, hb, hhex, hr, hne, hg, hd, World.setBalance, World.setAddress, World.logged]⟩
        · exact ⟨[.setAddress (Wallet.derivedAddress P),
              .get ("balance/" ++ Wallet.derivedAddress P),
              .setBalance (getProp data "balance")], by
            simp [Wallet.findAddress, Wallet.findAddressTry,
              Wallet.recoverPublicKeyFromSignature,
              hs, hb, hhex, hr, hne, hg, hd, World.setBalance, World.setAddress, World.logged]⟩

theorem findAddress_calls (secp : Secp) (server : Server) (signature recoveryBit : String)
    (w : World) :
    ∃ calls, (Wallet.findAddress secp server signature recoveryBit w).1.log = w.log ++ calls ∧
      ∀ h s r, Event.recoverPublicKey h s r ∈ calls →
        signature ≠ "" ∧ recoveryBit ≠ "" ∧ h = Wallet.hashMessage MSG ∧
        hexToBytes signature = .ok s ∧ r = jsNumber recoveryBit := by
  by_cases hg : signature = "" ∨ recoveryBit = ""
  · exact ⟨[], by simp [Wallet.findAddress, Wallet.findAddressTry, hg], by simp⟩
  · have hs : signature ≠ "" := fun h => hg (Or.inl h)
    have hb : recoveryBit ≠ "" := fun h => hg (Or.inr h)
    rcases hx : hexToBytes signature with err | sb
    · exact ⟨[.consoleError err, .setAddress "", .setBalance (.number (.int 0))], by
        simp [Wallet.findAddress, Wallet.findAddressTry, Wallet.recoverPublicKeyFromSignature,
          hs, hb, hx, World.setBalance, World.setAddress, World.logged], by simp⟩
    · rcases hr : secp.recoverPublicKey (Wallet.hashMessage MSG) sb (jsNumber recoveryBit)
        with err | P
      · exact ⟨[.recoverPublicKey (Wallet.hashMessage MSG) sb (jsNumber recoveryBit),
            .consoleError err, .setAddress "", .setBalance (.number (.int 0))], by
          simp [Wallet.findAddress, Wallet.findAddressTry, Wallet.recoverPublicKeyFromSignature,
            hs, hb, hx, hr, World.setBalance, World.setAddress, World.logged], by
          intro h s r hm
          simp at hm
          obtain ⟨rfl, rfl, rfl⟩ := hm
          exact ⟨hs, hb, rfl, rfl, rfl⟩⟩
      · by_cases hne : Wallet.derivedAddress P = ""
        · exact ⟨[.recoverPublicKey (Wallet.hashMessage MSG) sb (jsNumber recoveryBit),
              .setAddress (Wallet.derivedAddress P), .setBalance (.number (.int 0))], by
            simp [Wallet.findAddress, Wallet.findAddressTry, Wallet.recoverPublicKeyFromSignature,
              hs, hb, hx, hr, hne, World.setBalance, World.setAddress, World.logged], by
            intro h s r hm
            simp at hm
            obtain ⟨rfl, rfl, rfl⟩ := hm
            exact ⟨hs, hb, rfl, rfl, rfl⟩⟩
        · rcases hget : server.get ("balance/" ++ Wallet.derivedAddress P) with err | response
          · exact ⟨[.recoverPublicKey (Wallet.hashMessage MSG) sb (jsNumber recoveryBit),
                .setAddress (Wallet.derivedAddress P),
                .get ("balance/" ++ Wallet.derivedAddress P),
                .consoleError err, .setAddress "", .setBalance (.number (.int 0))], by
              simp [Wallet.findAddress, Wallet.findAddressTry,
                Wallet.recoverPublicKeyFromSignature,
                hs, hb, hx, hr, hne, hget, World.setBalance, World.setAddress, World.logged], by
              intro h s r hm
              simp at hm
              obtain ⟨rfl, rfl, rfl⟩ := hm
              exact ⟨hs, hb, rfl, rfl, rfl⟩⟩
          · rcases hd : response.data with _ | data
            · exact ⟨[.recoverPublicKey (Wallet.hashMessage MSG) sb (jsNumber recoveryBit),
                  .setAddress (Wallet.derivedAddress P),
                  .get ("balance/" ++ Wallet.derivedAddress P),
                  .consoleError .typeError, .setAddress "", .setBalance (.number (.int 0))], by
                simp [Wallet.findAddress, Wallet.findAddressTry,
                  Wallet.recoverPublicKeyFromSignature, hs, hb, hx, hr, hne, hget, hd,
                  World.setBalance, World.setAddress, World.logged], by
                intro h s r hm
                simp at hm
                obtain ⟨rfl, rfl, rfl⟩ := hm
                exact ⟨hs, hb, rfl, rfl, rfl⟩⟩
            · exact ⟨[.recoverPublicKey (Wallet.hashMessage MSG) sb (jsNumber recoveryBit),
                  .setAddress (Wallet.derivedAddress P),
                  .get ("balance/" ++ Wallet.derivedAddress P),
                  .setBalance (getProp data "balance")], by
                simp [Wallet.findAddress, Wallet.findAddressTry,
                  Wallet.recoverPublicKeyFromSignature, hs, hb, hx, hr, hne, hget, hd,
                  World.setBalance, World.setAddress, World.logged], by
                intro h s r hm
                simp at hm
                obtain ⟨rfl, rfl, rfl⟩ := hm
                exact ⟨hs, hb, rfl, rfl, rfl⟩⟩

theorem findAddress_of_hex_throw (secp : Secp) (server : Server)
    (signature recoveryBit : String) (w : World) (e : Thrown)
    (hs : signature ≠ "") (hb : recoveryBit ≠ "")
    (hhex : hexToBytes signature = .error e) :
    (Wallet.findAddress secp server signature recoveryBit w).1.address = "" ∧
    (Wallet.findAddress secp server signature recoveryBit w).1.balance = .number (.int 0) :=
  findAddress_of_throw _ _ _ _ _ e
    (by simp [Wallet.findAddressTry, Wallet.recoverPublicKeyFromSignature, hs, hb, hhex])

theorem findAddress_bodyless (secp : Secp) (server : Server) (signature recoveryBit : String)
    (w : World) (sb P : Bytes) (response : Response)
    (hs : signature ≠ "") (hb : recoveryBit ≠ "")
    (hhex : hexToBytes signature = .ok sb)
    (hrec : secp.recoverPublicKey (Wallet.hashMessage MSG) sb (jsNumber recoveryBit) = .ok P)
    (hP : P ≠ [])
    (hget : server.get ("balance/" ++ Wallet.derivedAddress P) = .ok response)
    (hdata : response.data = none) :
    Wallet.findAddress secp server signature recoveryBit w =
      (⟨"", .number (.int 0),
        w.log ++ [.recoverPublicKey (Wallet.hashMessage MSG) sb (jsNumber recoveryBit),
          .setAddress (Wallet.derivedAddress P),
          .get ("balance/" ++ Wallet.derivedAddress P),
          .consoleError .typeError, .setAddress "", .setBalance (.number (.int 0))]⟩, .ok ()) := by
  simp [Wallet.findAddress, Wallet.findAddressTry, Wallet.recoverPublicKeyFromSignature,
    hs, hb, hhex, hrec, derivedAddress_ne_empty P hP, hget, hdata,
    World.setBalance, World.setAddress, World.logged]

theorem jsNumber_one : jsNumber "1" = .int 1 := by decide!

theorem jsNumber_two : jsNumber "2" = .int 2 := by decide!

theorem jsNumber_blank : jsNumber " " = .int 0 := by decide

theorem findAddress_of_recover_throw (secp : Secp) (server : Server)
    (signature recoveryBit : String) (w : World) (sb : Bytes) (e : Thrown)
    (hs : signature ≠ "") (hb : recoveryBit ≠ "")
    (hhex : hexToBytes signature = .ok sb)
    (hrec : secp.recoverPublicKey (Wallet.hashMessage MSG) sb (jsNumber recoveryBit) = .error e) :
    (Wallet.findAddress secp server signature recoveryBit w).1.address = "" ∧
    (Wallet.findAddress secp server signature recoveryBit w).1.balance = .number (.int 0) :=
  findAddress_of_throw _ _ _ _ _ e
    (by simp [Wallet.findAddressTry, Wallet.recoverPublicKeyFromSignature, hs, hb, hhex, hrec])

theorem demoSignature_ne_empty : demoSignature ≠ "" :=
  string_ne_empty_of_length _ (by rw [demoSignature, length_toHex]; decide)

theorem basePointKey_ne_nil : basePointKey ≠ [] := by decide

theorem derivedAddress_basePointKey :
    Wallet.derivedAddress basePointKey = "54199c47d08ffb10d4b8" := by decide!

theorem demoSecp_inverts (d : Bytes) (key : PrivKey) (s : Bytes) (r : Nat) (Q : Bytes)
    (h1 : demoSecp.sign d key = .ok (s, r)) (h2 : demoSecp.getPublicKey key = .ok Q) :
    demoSecp.recoverPublicKey d s (.int r) = .ok Q := by
  cases key with
  | hex k =>
    simp only [demoSecp] at h1 h2 ⊢
    split at h1
    · simp at h1
    · rename_i hk
      simp only [hk, if_false, Except.ok.injEq, Prod.mk.injEq] at h1 h2
      obtain ⟨rfl, rfl⟩ := h1
      subst h2
      simp
  | bytes b =>
    simp only [demoSecp] at h1 h2 ⊢
    split at h1
    · simp at h1
    · rename_i hk
      simp only [hk, if_false, Except.ok.injEq, Prod.mk.injEq] at h1 h2
      obtain ⟨rfl, rfl⟩ := h1
      subst h2
      simp

/-! ## The claims -/

/-- C1 (evaluation at the failing input): for the public key of the private key `1`
the recovery path of `Wallet.jsx` derives `54199c47d08ffb10d4b8`, the last 20
hexadecimal characters of the key itself, while `wallet-gen.js` prints
`7d6e99bb8abf8cc013bb0e912d0b176596fe7b88`, the last 40 hexadecimal characters of
the Keccak-256 digest of the key; and for no public key at all do the two paths
derive the same address. -/
theorem C1_recovery_and_generation_addresses_differ :
    Wallet.derivedAddress basePointKey = "54199c47d08ffb10d4b8" ∧
    WalletGen.address basePointKey = "7d6e99bb8abf8cc013bb0e912d0b176596fe7b88" ∧
    ∀ P : Bytes, Wallet.derivedAddress P ≠ WalletGen.address P := by
  refine ⟨by decide!, by decide!, ?_⟩
  intro P h
  have h1 := derivedAddress_length_le P
  have h2 := address_length P
  rw [h] at h1
  omega

/-- C2: let the library be such that recovery inverts signing on one digest. If the
signer of `ecdsa-sign.js`, run on the private key `k` and the message `m`, obtains
the signature `sig` and the recovery number `recovery` (at most 3), then it prints
`toHex(sig)` and `String(recovery)`, and `recoverPublicKeyFromSignature` applied
to `m` and these two texts returns the public key of `k`. On the way, both sides
hash the same digest, `hexToBytes(toHex(sig)) = sig` and
`Number(String(recovery)) = recovery`. -/
theorem C2_sign_then_recover_round_trip (secp : Secp) (k m : String) (sig : Bytes)
    (recovery : Nat) (P : Bytes)
    (hinv : ∀ (d : Bytes) (key : PrivKey) (s : Bytes) (r : Nat) (Q : Bytes),
      secp.sign d key = .ok (s, r) → secp.getPublicKey key = .ok Q →
      secp.recoverPublicKey d s (.int r) = .ok Q)
    (hsign : secp.sign (Sign.hashMessage m) (.hex k) = .ok (sig, recovery))
    (hbit : recovery ≤ 3)
    (hpub : secp.getPublicKey (.hex k) = .ok P) :
    Sign.main secp k m =
      .ok ["\nSignature: " ++ toHex sig, "Recovery Bit: " ++ numberToString recovery] ∧
    (Wallet.recoverPublicKeyFromSignature secp m (toHex sig) (numberToString recovery)).2
      = secp.getPublicKey (.hex k) ∧
    (Wallet.recoverPublicKeyFromSignature secp m (toHex sig) (numberToString recovery)).2
      = .ok P ∧
    Sign.hashMessage m = Wallet.hashMessage m ∧
    hexToBytes (toHex sig) = .ok sig ∧
    jsNumber (numberToString recovery) = .int recovery := by
  have hrt : (Wallet.recoverPublicKeyFromSignature secp m (toHex sig)
      (numberToString recovery)).2 = .ok P := by
    simp only [Wallet.recoverPublicKeyFromSignature, hexToBytes_toHex,
      jsNumber_numberToString recovery hbit]
    exact hinv _ _ _ _ _ hsign hpub
  refine ⟨?_, ?_, hrt, rfl, hexToBytes_toHex sig, jsNumber_numberToString recovery hbit⟩
  · simp [Sign.main, hsign]
  · rw [hrt, hpub]

/-- Witness of C2: the stand-in library, the private key `01` and the message of the
application. -/
theorem C2_sign_then_recover_round_trip_witness :
    Sign.main demoSecp "01" MSG =
      .ok ["\nSignature: " ++ toHex (Sign.hashMessage MSG ++ utf8ToBytes "01"),
        "Recovery Bit: " ++ numberToString 1] ∧
    (Wallet.recoverPublicKeyFromSignature demoSecp MSG
      (toHex (Sign.hashMessage MSG ++ utf8ToBytes "01")) (numberToString 1)).2
      = demoSecp.getPublicKey (.hex "01") ∧
    (Wallet.recoverPublicKeyFromSignature demoSecp MSG
      (toHex (Sign.hashMessage MSG ++ utf8ToBytes "01")) (numberToString 1)).2
      = .ok (utf8ToBytes "01") ∧
    Sign.hashMessage MSG = Wallet.hashMessage MSG ∧
    hexToBytes (toHex (Sign.hashMessage MSG ++ utf8ToBytes "01"))
      = .ok (Sign.hashMessage MSG ++ utf8ToBytes "01") ∧
    jsNumber (numberToString 1) = .int (1 : Nat) :=
  C2_sign_then_recover_round_trip demoSecp "01" MSG (Sign.hashMessage MSG ++ utf8ToBytes "01") 1
    (utf8ToBytes "01") demoSecp_inverts rfl (by decide) rfl

/-- C3: for a non-empty signature and a non-empty recovery bit, whenever the
recovery path throws (`hexToBytes` rejects the signature, `secp.recoverPublicKey`
throws, the balance request is rejected, or its response has no body to
destructure), `findAddress` itself returns normally and leaves the address `""`
and the balance `0`, whatever they were before. -/
theorem C3_failure_resets_address_and_balance (secp : Secp) (server : Server)
    (signature recoveryBit : String) (w : World) (e : Thrown)
    (hs : signature ≠ "") (hb : recoveryBit ≠ "")
    (hthrow :
      hexToBytes signature = .error e ∨
      (∃ sb, hexToBytes signature = .ok sb ∧
        secp.recoverPublicKey (Wallet.hashMessage MSG) sb (jsNumber recoveryBit) = .error e) ∨
      (∃ sb P, hexToBytes signature = .ok sb ∧
        secp.recoverPublicKey (Wallet.hashMessage MSG) sb (jsNumber recoveryBit) = .ok P ∧
        P ≠ [] ∧ server.get ("balance/" ++ Wallet.derivedAddress P) = .error e) ∨
      (∃ sb P response, hexToBytes signature = .ok sb ∧
        secp.recoverPublicKey (Wallet.hashMessage MSG) sb (jsNumber recoveryBit) = .ok P ∧
        P ≠ [] ∧ server.get ("balance/" ++ Wallet.derivedAddress P) = .ok response ∧
        response.data = none)) :
    (Wallet.findAddress secp server signature recoveryBit w).2 = .ok () ∧
    (Wallet.findAddress secp server signature recoveryBit w).1.address = "" ∧
    (Wallet.findAddress secp server signature recoveryBit w).1.balance = .number (.int 0) := by
  refine ⟨findAddress_completes _ _ _ _ _, ?_⟩
  rcases hthrow with h | ⟨sb, h1, h2⟩ | ⟨sb, P, h1, h2, hP, h3⟩ | ⟨sb, P, r, h1, h2, hP, h3, h4⟩
  · exact findAddress_of_throw _ _ _ _ _ e
      (by simp [Wallet.findAddressTry, Wallet.recoverPublicKeyFromSignature, hs, hb, h])
  · exact findAddress_of_throw _ _ _ _ _ e
      (by simp [Wallet.findAddressTry, Wallet.recoverPublicKeyFromSignature, hs, hb, h1, h2])
  · exact findAddress_of_throw _ _ _ _ _ e
      (by simp [Wallet.findAddressTry, Wallet.recoverPublicKeyFromSignature, hs, hb, h1, h2, h3,
        derivedAddress_ne_empty P hP])
  · exact findAddress_of_throw _ _ _ _ _ .typeError
      (by simp [Wallet.findAddressTry, Wallet.recoverPublicKeyFromSignature, hs, hb, h1, h2, h3, h4,
        derivedAddress_ne_empty P hP])

/-- Witness of C3: the malformed signature `not-hex`, after an earlier look-up. -/
theorem C3_failure_resets_address_and_balance_witness :
    (Wallet.findAddress basePointSecp demoServer "not-hex" "0" priorWorld).2 = .ok () ∧
    (Wallet.findAddress basePointSecp demoServer "not-hex" "0" priorWorld).1.address = "" ∧
    (Wallet.findAddress basePointSecp demoServer "not-hex" "0" priorWorld).1.balance
      = .number (.int 0) :=
  C3_failure_resets_address_and_balance basePointSecp demoServer "not-hex" "0" priorWorld
    (.error "hexToBytes: received invalid unpadded hex") (by decide) (by decide) (Or.inl rfl)

/-- C4 (counterexample): with the sample signature, the recovery bit `" "` (one space)
is neither `0` nor `1`, yet `Number(" ")` is `0`, `secp.recoverPublicKey` is called
with the bit `0`, and `findAddress` ends with the recovered address and the
fetched balance `75`, not in the failure state; and with the recovery bit `""`
it ends with the prior address and balance, not in the failure state either. -/
theorem C4_blank_recovery_bit_is_taken_as_zero :
    jsNumber " " = .int 0 ∧
    Wallet.findAddress basePointSecp demoServer demoSignature " " priorWorld =
      (⟨"54199c47d08ffb10d4b8", .number (.int 75),
        [.recoverPublicKey (Wallet.hashMessage MSG) demoSignatureBytes (.int 0),
          .setAddress "54199c47d08ffb10d4b8",
          .get "balance/54199c47d08ffb10d4b8",
          .setBalance (.number (.int 75))]⟩, .ok ()) ∧
    Wallet.findAddress basePointSecp demoServer demoSignature "" priorWorld =
      (⟨"0123456789abcdef0123", .number (.int 50), []⟩, .ok ()) := by
  refine ⟨jsNumber_blank, ?_, ?_⟩
  · have h := findAddress_success basePointSecp demoServer demoSignature " " priorWorld
      demoSignatureBytes basePointKey
      ⟨200, [("content-type", "application/json")],
        some [("owner", .string ("balance/" ++ Wallet.derivedAddress basePointKey)),
          ("balance", .number (.int 75))]⟩
      [("owner", .string ("balance/" ++ Wallet.derivedAddress basePointKey)),
        ("balance", .number (.int 75))]
      demoSignature_ne_empty (by decide) (hexToBytes_toHex demoSignatureBytes)
      (by rw [jsNumber_blank]; rfl)
      basePointKey_ne_nil rfl rfl
    rw [h, derivedAddress_basePointKey, jsNumber_blank]
    rfl
  · simp [Wallet.findAddress, Wallet.findAddressTry, priorWorld]

/-- C4 (amended): for every signature and recovery bit, `findAddress` returns at once
with the world unchanged when the recovery bit is the empty string; whatever
the inputs, every call of `secp.recoverPublicKey` that it makes carries the
number `Number(recoveryBit)`, which it does not check, and that call is made
as soon as the signature is not empty and `hexToBytes` decodes it; and it ends
in the failure state when `hexToBytes` rejects the signature or that call
throws. -/
theorem C4_recovery_bit_is_passed_unchecked (secp : Secp) (server : Server)
    (signature recoveryBit : String) (w : World) :
    (recoveryBit = "" → Wallet.findAddress secp server signature recoveryBit w = (w, .ok ())) ∧
    (∃ calls, (Wallet.findAddress secp server signature recoveryBit w).1.log = w.log ++ calls ∧
      ∀ h s r, Event.recoverPublicKey h s r ∈ calls →
        signature ≠ "" ∧ recoveryBit ≠ "" ∧ hexToBytes signature = .ok s ∧
        r = jsNumber recoveryBit) ∧
    (signature ≠ "" → recoveryBit ≠ "" →
      (∀ sb, hexToBytes signature = .ok sb →
        ∃ rest, (Wallet.findAddress secp server signature recoveryBit w).1.log =
          w.log ++ .recoverPublicKey (Wallet.hashMessage MSG) sb (jsNumber recoveryBit) :: rest) ∧
      (∀ e, (hexToBytes signature = .error e ∨
          ∃ sb, hexToBytes signature = .ok sb ∧
            secp.recoverPublicKey (Wallet.hashMessage MSG) sb (jsNumber recoveryBit) = .error e) →
        (Wallet.findAddress secp server signature recoveryBit w).1.address = "" ∧
        (Wallet.findAddress secp server signature recoveryBit w).1.balance
          = .number (.int 0))) := by
  refine ⟨?_, ?_, ?_⟩
  · intro hb
    simp [Wallet.findAddress, Wallet.findAddressTry, hb]
  · obtain ⟨calls, hlog, hcalls⟩ := findAddress_calls secp server signature recoveryBit w
    exact ⟨calls, hlog, fun h s r hm =>
      ⟨(hcalls h s r hm).1, (hcalls h s r hm).2.1, (hcalls h s r hm).2.2.2.1,
        (hcalls h s r hm).2.2.2.2⟩⟩
  · intro hs hb
    refine ⟨fun sb hhex => findAddress_log_head secp server signature recoveryBit w sb hs hb hhex,
      ?_⟩
    intro e he
    rcases he with hhex | ⟨sb, hhex, hrec⟩
    · exact findAddress_of_hex_throw secp server signature recoveryBit w e hs hb hhex
    · exact findAddress_of_recover_throw secp server signature recoveryBit w sb e hs hb hhex hrec

/-- Witness of the amended C4: the sample signature with the recovery bit `"2"`, which
the library rejects: the call carries the number `2` and the failure state follows. -/
theorem C4_recovery_bit_is_passed_unchecked_witness :
    (∃ rest, (Wallet.findAddress basePointSecp demoServer demoSignature "2" priorWorld).1.log =
      priorWorld.log ++
        .recoverPublicKey (Wallet.hashMessage MSG) demoSignatureBytes (.int 2) :: rest) ∧
    (Wallet.findAddress basePointSecp demoServer demoSignature "2" priorWorld).1.address = "" ∧
    (Wallet.findAddress basePointSecp demoServer demoSignature "2" priorWorld).1.balance
      = .number (.int 0) := by
  have h := (C4_recovery_bit_is_passed_unchecked basePointSecp demoServer demoSignature "2"
    priorWorld).2.2 demoSignature_ne_empty (by decide)
  rw [jsNumber_two] at h
  exact ⟨h.1 demoSignatureBytes (hexToBytes_toHex demoSignatureBytes),
    h.2 (.error "Cannot recover: invalid recovery bit")
      (Or.inr ⟨demoSignatureBytes, hexToBytes_toHex demoSignatureBytes, rfl⟩)⟩

/-- C5 (evaluation at the failing input): for the public key of the private key `1`
the address derived in `findAddress` is `54199c47d08ffb10d4b8`, whereas the last 20
hexadecimal characters of `toHex(keccak256(P))` are `0e912d0b176596fe7b88`; for
every key the derived address is the last 20 hexadecimal characters of the key
itself, that is the hexadecimal text of its last 10 bytes, and no hash enters. -/
theorem C5_derived_address_is_not_hashed :
    Wallet.derivedAddress basePointKey = "54199c47d08ffb10d4b8" ∧
    sliceLast (toHex (keccak256 basePointKey)) 20 = "0e912d0b176596fe7b88" ∧
    Wallet.derivedAddress basePointKey ≠ sliceLast (toHex (keccak256 basePointKey)) 20 ∧
    ∀ P : Bytes, Wallet.derivedAddress P = sliceLast (toHex P) 20 ∧
      Wallet.derivedAddress P = toHex (P.drop (P.length - 10)) := by
  refine ⟨by decide!, by decide!, by decide!, ?_⟩
  intro P
  exact ⟨rfl, derivedAddress_eq P⟩

/-- C6: the address that `wallet-gen.js` prints for the public key `P` of its private
key has exactly 40 characters, all of them among `0123456789abcdef`, does not
start with `0x`, and is the hexadecimal text of the last 20 bytes of the 32-byte
digest `keccak256(P)`; it is what the line `Address: ` of the script shows. -/
theorem C6_generation_address_format (secp : Secp) (privateKey P : Bytes)
    (hpub : secp.getPublicKey (.bytes privateKey) = .ok P) :
    (keccak256 P).length = 32 ∧
    (WalletGen.address P).length = 40 ∧
    (∀ c ∈ (WalletGen.address P).data, c ∈ "0123456789abcdef".data) ∧
    ¬ "0x".data <+: (WalletGen.address P).data ∧
    ((keccak256 P).drop 12).length = 20 ∧
    WalletGen.address P = toHex ((keccak256 P).drop 12) ∧
    (WalletGen.script secp privateKey).1 =
      ["Private Key: " ++ toHex privateKey, "Public Key: " ++ toHex P,
        "Address: " ++ WalletGen.address P] := by
  have hchars : ∀ c ∈ (WalletGen.address P).data, c ∈ "0123456789abcdef".data := by
    rw [address_eq]
    exact toHex_chars _
  refine ⟨keccak256_length P, address_length P, hchars, ?_, ?_, address_eq P, ?_⟩
  · intro hp
    have hx : 'x' ∈ (WalletGen.address P).data := hp.subset (by decide)
    exact absurd (hchars _ hx) (by decide)
  · rw [List.length_drop, keccak256_length]
  · simp [WalletGen.script, hpub]

/-- Witness of C6: the private key `1` and its public key, the base point. -/
theorem C6_generation_address_format_witness :
    (keccak256 basePointKey).length = 32 ∧
    (WalletGen.address basePointKey).length = 40 ∧
    (∀ c ∈ (WalletGen.address basePointKey).data, c ∈ "0123456789abcdef".data) ∧
    ¬ "0x".data <+: (WalletGen.address basePointKey).data ∧
    ((keccak256 basePointKey).drop 12).length = 20 ∧
    WalletGen.address basePointKey = toHex ((keccak256 basePointKey).drop 12) ∧
    (WalletGen.script basePointSecp (List.replicate 31 0 ++ [1])).1 =
      ["Private Key: " ++ toHex (List.replicate 31 0 ++ [1]),
        "Public Key: " ++ toHex basePointKey,
        "Address: " ++ WalletGen.address basePointKey] :=
  C6_generation_address_format basePointSecp (List.replicate 31 0 ++ [1]) basePointKey rfl

/-- C7: for every message the digest signed by `ecdsa-sign.js` and the digest
recovered against by `Wallet.jsx` are the same, namely the Keccak-256 digest of
the UTF-8 bytes of the message as given; a message with a space appended has
another digest, on both sides. -/
theorem C7_same_digest_on_both_sides (m : String) :
    Sign.hashMessage m = Wallet.hashMessage m ∧
    Sign.hashMessage m = keccak256 (utf8ToBytes m) ∧
    Wallet.hashMessage m = keccak256 (utf8ToBytes m) ∧
    Sign.hashMessage (MSG ++ " ") ≠ Sign.hashMessage MSG ∧
    Wallet.hashMessage (" " ++ MSG) ≠ Wallet.hashMessage MSG := by
  refine ⟨rfl, rfl, rfl, by decide!, by decide!⟩

/-- C8 (counterexample): with the sample signature and the recovery bit `1`, recovery
returns the base-point key and the balance request returns a response, but one
without a body; `findAddress` then ends with the address `""` and the balance
`0`, not with the derived address `54199c47d08ffb10d4b8`. -/
theorem C8_bodyless_response_resets_state :
    basePointSecp.recoverPublicKey (Wallet.hashMessage MSG) demoSignatureBytes (jsNumber "1")
      = .ok basePointKey ∧
    bodylessServer.get "balance/54199c47d08ffb10d4b8" = .ok ⟨204, [], none⟩ ∧
    Wallet.findAddress basePointSecp bodylessServer demoSignature "1" priorWorld =
      (⟨"", .number (.int 0),
        [.recoverPublicKey (Wallet.hashMessage MSG) demoSignatureBytes (.int 1),
          .setAddress "54199c47d08ffb10d4b8",
          .get "balance/54199c47d08ffb10d4b8",
          .consoleError .typeError, .setAddress "", .setBalance (.number (.int 0))]⟩, .ok ()) := by
  have hrec : basePointSecp.recoverPublicKey (Wallet.hashMessage MSG) demoSignatureBytes
      (jsNumber "1") = .ok basePointKey := by
    rw [jsNumber_one]; rfl
  refine ⟨hrec, rfl, ?_⟩
  have h := findAddress_bodyless basePointSecp bodylessServer demoSignature "1" priorWorld
    demoSignatureBytes basePointKey ⟨204, [], none⟩
    demoSignature_ne_empty (by decide) (hexToBytes_toHex demoSignatureBytes) hrec
    basePointKey_ne_nil rfl rfl
  rw [h, derivedAddress_basePointKey, jsNumber_one]
  rfl

/-- C8 (amended): for a non-empty signature and recovery bit, when recovery returns a
(non-empty) key `P` and the balance request returns a response that has a body,
`findAddress` issues exactly one request, for the path `balance/` followed by
the derived address, and ends with the address set to that derived address,
made of lower-case hexadecimal digits only, and the balance set to the property
`balance` of the body (`undefined` when the body has none); a response that
agrees on that property gives the same result, whatever else it holds. -/
theorem C8_success_sets_address_and_fetched_balance (secp : Secp) (server : Server)
    (signature recoveryBit : String) (w : World) (sb P : Bytes) (response : Response)
    (data : List (String × JSValue))
    (hs : signature ≠ "") (hb : recoveryBit ≠ "")
    (hhex : hexToBytes signature = .ok sb)
    (hrec : secp.recoverPublicKey (Wallet.hashMessage MSG) sb (jsNumber recoveryBit) = .ok P)
    (hP : P ≠ [])
    (hget : server.get ("balance/" ++ Wallet.derivedAddress P) = .ok response)
    (hdata : response.data = some data) :
    Wallet.findAddress secp server signature recoveryBit w =
      (⟨Wallet.derivedAddress P, (data.lookup "balance").getD .undefined,
        w.log ++ [.recoverPublicKey (Wallet.hashMessage MSG) sb (jsNumber recoveryBit),
          .setAddress (Wallet.derivedAddress P),
          .get ("balance/" ++ Wallet.derivedAddress P),
          .setBalance ((data.lookup "balance").getD .undefined)]⟩, .ok ()) ∧
    (∀ fetched, data.lookup "balance" = some fetched →
      (Wallet.findAddress secp server signature recoveryBit w).1.balance = fetched) ∧
    (∀ c ∈ (Wallet.derivedAddress P).data, c ∈ "0123456789abcdef".data) ∧
    (∀ (server2 : Server) (response2 : Response) (data2 : List (String × JSValue)),
      server2.get ("balance/" ++ Wallet.derivedAddress P) = .ok response2 →
      response2.data = some data2 →
      data2.lookup "balance" = data.lookup "balance" →
      Wallet.findAddress secp server2 signature recoveryBit w
        = Wallet.findAddress secp server signature recoveryBit w) := by
  have h := findAddress_success secp server signature recoveryBit w sb P response data
    hs hb hhex hrec hP hget hdata
  refine ⟨h, ?_, ?_, ?_⟩
  · intro fetched hf
    rw [h]
    simp [getProp, hf]
  · rw [derivedAddress_eq]
    exact toHex_chars _
  · intro server2 response2 data2 hget2 hdata2 hsame
    rw [h, findAddress_success secp server2 signature recoveryBit w sb P response2 data2
      hs hb hhex hrec hP hget2 hdata2]
    simp [getProp, hsame]

/-- Witness of C8: the sample signature with the recovery bit `1`, the base-point key
and the server that answers `75`. -/
theorem C8_success_sets_address_and_fetched_balance_witness :
    Wallet.findAddress basePointSecp demoServer demoSignature "1" priorWorld =
      (⟨"54199c47d08ffb10d4b8", .number (.int 75),
        [.recoverPublicKey (Wallet.hashMessage MSG) demoSignatureBytes (.int 1),
          .setAddress "54199c47d08ffb10d4b8",
          .get "balance/54199c47d08ffb10d4b8",
          .setBalance (.number (.int 75))]⟩, .ok ()) ∧
    (Wallet.findAddress basePointSecp demoServer demoSignature "1" priorWorld).1.balance
      = .number (.int 75) := by
  have h := C8_success_sets_address_and_fetched_balance basePointSecp demoServer demoSignature
    "1" priorWorld demoSignatureBytes basePointKey
    ⟨200, [("content-type", "application/json")],
      some [("owner", .string ("balance/" ++ Wallet.derivedAddress basePointKey)),
        ("balance", .number (.int 75))]⟩
    [("owner", .string ("balance/" ++ Wallet.derivedAddress basePointKey)),
      ("balance", .number (.int 75))]
    demoSignature_ne_empty (by decide) (hexToBytes_toHex demoSignatureBytes)
    (by rw [jsNumber_one]; rfl) basePointKey_ne_nil rfl rfl
  refine ⟨?_, h.2.1 (.number (.int 75)) (by decide)⟩
  rw [h.1, derivedAddress_basePointKey, jsNumber_one]
  rfl

/-- C9: when the signature or the recovery bit is the empty string, `findAddress`
returns normally with the world exactly as it was: the address and the balance
keep their prior values and the log gains no event, so neither
`secp.recoverPublicKey` nor `server.get` was called. -/
theorem C9_empty_input_changes_nothing (secp : Secp) (server : Server)
    (signature recoveryBit : String) (w : World)
    (h : signature = "" ∨ recoveryBit = "") :
    Wallet.findAddress secp server signature recoveryBit w = (w, .ok ()) ∧
    (Wallet.findAddress secp server signature recoveryBit w).1.address = w.address ∧
    (Wallet.findAddress secp server signature recoveryBit w).1.balance = w.balance ∧
    (Wallet.findAddress secp server signature recoveryBit w).1.log = w.log := by
  have h1 : Wallet.findAddress secp server signature recoveryBit w = (w, .ok ()) := by
    simp [Wallet.findAddress, Wallet.findAddressTry, h]
  simp [h1]

/-- Witness of C9: an empty signature with the recovery bit `0`, after an earlier
look-up. -/
theorem C9_empty_input_changes_nothing_witness :
    Wallet.findAddress basePointSecp demoServer "" "0" priorWorld = (priorWorld, .ok ()) ∧
    (Wallet.findAddress basePointSecp demoServer "" "0" priorWorld).1.address = priorWorld.address ∧
    (Wallet.findAddress basePointSecp demoServer "" "0" priorWorld).1.balance = priorWorld.balance ∧
    (Wallet.findAddress basePointSecp demoServer "" "0" priorWorld).1.log = priorWorld.log :=
  C9_empty_input_changes_nothing basePointSecp demoServer "" "0" priorWorld (Or.inl rfl)

/-- C10: a recovered public key of at least 10 bytes gives a derived address of exactly
20 characters, hence a non-empty one; so after a successful recovery of such a key
`findAddress` takes the branch with the balance request: the log continues with the
recovery call, `setAddress` and the request `balance/` followed by the address. -/
theorem C10_request_follows_recovery (P : Bytes) (hP : 10 ≤ P.length)
    (secp : Secp) (server : Server) (signature recoveryBit : String) (w : World) (sb : Bytes)
    (hs : signature ≠ "") (hb : recoveryBit ≠ "")
    (hhex : hexToBytes signature = .ok sb)
    (hrec : secp.recoverPublicKey (Wallet.hashMessage MSG) sb (jsNumber recoveryBit) = .ok P) :
    (toHex P).length ≥ 20 ∧
    (Wallet.derivedAddress P).length = 20 ∧
    Wallet.derivedAddress P ≠ "" ∧
    ∃ rest, (Wallet.findAddress secp server signature recoveryBit w).1.log =
      w.log ++ [.recoverPublicKey (Wallet.hashMessage MSG) sb (jsNumber recoveryBit),
        .setAddress (Wallet.derivedAddress P),
        .get ("balance/" ++ Wallet.derivedAddress P)] ++ rest := by
  have hne : Wallet.derivedAddress P ≠ "" :=
    string_ne_empty_of_length _ (by rw [derivedAddress_length P hP]; decide)
  refine ⟨by rw [length_toHex]; omega, derivedAddress_length P hP, hne, ?_⟩
  rcases hg : server.get ("balance/" ++ Wallet.derivedAddress P) with err | response
  · exact ⟨[.consoleError err, .setAddress "", .setBalance (.number (.int 0))], by
      simp [Wallet.findAddress, Wallet.findAddressTry, Wallet.recoverPublicKeyFromSignature,
        hs, hb, hhex, hrec, hne, hg, World.setBalance, World.setAddress, World.logged]⟩
  · rcases hd : response.data with _ | data
    · exact ⟨[.consoleError .typeError,
          .setAddress "", .setBalance (.number (.int 0))], by
        simp [Wallet.findAddress, Wallet.findAddressTry, Wallet.recoverPublicKeyFromSignature,
          hs, hb, hhex, hrec, hne, hg, hd, World.setBalance, World.setAddress, World.logged]⟩
    · exact ⟨[.setBalance (getProp data "balance")], by
        simp [Wallet.findAddress, Wallet.findAddressTry, Wallet.recoverPublicKeyFromSignature,
          hs, hb, hhex, hrec, hne, hg, hd, World.setBalance, World.setAddress, World.logged]⟩

/-- Witness of C10: the base-point key (65 bytes), recovered from the sample
signature with the recovery bit `1`. -/
theorem C10_request_follows_recovery_witness :
    (toHex basePointKey).length ≥ 20 ∧
    (Wallet.derivedAddress basePointKey).length = 20 ∧
    Wallet.derivedAddress basePointKey ≠ "" ∧
    ∃ rest, (Wallet.findAddress basePointSecp demoServer demoSignature "1" priorWorld).1.log =
      priorWorld.log ++ [.recoverPublicKey (Wallet.hashMessage MSG) demoSignatureBytes
          (jsNumber "1"),
        .setAddress (Wallet.derivedAddress basePointKey),
        .get ("balance/" ++ Wallet.derivedAddress basePointKey)] ++ rest :=
  C10_request_follows_recovery basePointKey (by decide) basePointSecp demoServer demoSignature "1"
    priorWorld demoSignatureBytes demoSignature_ne_empty (by decide)
    (hexToBytes_toHex demoSignatureBytes) (by rw [jsNumber_one]; rfl)

end EcdsaWallet
